import Mathlib

/-!
Shallow embedding of the expense-tracker application (`src/app.js`).

Modelling conventions:
* JS numbers (expense amounts) are modelled as rationals `ℚ`.
* An ISO calendar-date string `"YYYY-MM-DD"` is modelled by its day number
  (days since the epoch) as an `Int`.  The JS expression `new Date(str)` on a
  date-only string denotes the UTC midnight of that day; we measure instants
  in minutes, so this instant is `day * 1440`.  The runtime timezone is the
  parameter `tz`, the offset east of UTC in minutes, so the instant whose
  local wall-clock reading is midnight of local day `d` is `d * 1440 - tz`.
* `Array.prototype.sort` with a comparator `c` is modelled as the stable
  `List.insertionSort` on the relation `c a b ≤ 0`, which is the behaviour
  ECMAScript guarantees for a consistent comparator.
* `localeCompare` on titles is modelled as code-point order on strings.
* Strings are sequences of `Char`; JS `length` (UTF-16 units) coincides with
  it on the inputs considered here.
-/

namespace ExpenseTracker

/-- An entry of the static `CATEGORIES` reference table of `app.js`. -/
structure Category where
  id : String
  name : String
  icon : String
  color : String
deriving DecidableEq, Repr

/-- The fixed category table (`CATEGORIES` in `app.js`). -/
def CATEGORIES : List Category :=
  [ ⟨"food", "Food & Dining", "fa-utensils", "#ef4444"⟩,
    ⟨"transport", "Transportation", "fa-car", "#3b82f6"⟩,
    ⟨"utilities", "Utilities", "fa-bolt", "#f59e0b"⟩,
    ⟨"entertainment", "Entertainment", "fa-film", "#8b5cf6"⟩,
    ⟨"shopping", "Shopping", "fa-bag-shopping", "#ec4899"⟩,
    ⟨"health", "Healthcare", "fa-heartbeat", "#10b981"⟩,
    ⟨"education", "Education", "fa-graduation-cap", "#6366f1"⟩,
    ⟨"other", "Other", "fa-ellipsis-h", "#6b7280"⟩ ]

/-- An expense record as stored in the `expenses` state array.  `notes` is
optional because imported records may lack it; `updatedAt` is set only by the
edit operation. -/
structure Expense where
  id : String
  title : String
  amount : ℚ
  category : String
  date : Int
  notes : Option String
  createdAt : Int
  updatedAt : Option Int
deriving DecidableEq, Repr

/-- Boolean test that `pat` is an initial segment of a character list. -/
def charsStartWith : List Char → List Char → Bool
  | [], _ => true
  | _ :: _, [] => false
  | a :: as, b :: bs => a == b && charsStartWith as bs

/-- Boolean test that `pat` occurs contiguously in `hay`. -/
def charsContain (pat : List Char) : List Char → Bool
  | [] => pat.isEmpty
  | c :: t => charsStartWith pat (c :: t) || charsContain pat t

/-- Model of the JS `String.prototype.includes` method. -/
def strIncludes (hay pat : String) : Bool :=
  charsContain pat.toList hay.toList

/-- Model of the JS `String.prototype.toLowerCase` method (ASCII letters). -/
def strToLower (s : String) : String :=
  String.mk (s.toList.map Char.toLower)

/-- Whitespace removed from both ends of a character list. -/
def charsTrim (l : List Char) : List Char :=
  ((l.dropWhile Char.isWhitespace).reverse.dropWhile Char.isWhitespace).reverse

/-- Model of the JS `String.prototype.trim` method. -/
def strTrim (s : String) : String :=
  String.mk (charsTrim s.toList)

/-- The filter predicate of `filteredExpenses` in `app.js`: a case-insensitive
substring match of the search term against title or notes (optional chaining
on absent notes yields a falsy value), conjoined with the category filter. -/
def matchesView (searchTerm filterCategory : String) (e : Expense) : Bool :=
  let matchesSearch :=
    strIncludes (strToLower e.title) (strToLower searchTerm) ||
      (match e.notes with
        | some n => strIncludes (strToLower n) (strToLower searchTerm)
        | none => false)
  let matchesCategory := filterCategory == "all" || e.category == filterCategory
  matchesSearch && matchesCategory

/-- The six sort keys of the reports view. -/
inductive SortKey where
  | dateDesc
  | dateAsc
  | amountDesc
  | amountAsc
  | titleAsc
  | titleDesc
deriving DecidableEq, Repr

/-- The order relation induced by each comparator of `filteredExpenses`:
`sortRel k a b` holds when the comparator applied to `(a, b)` is `≤ 0`, i.e.
when a stable sort may keep `a` before `b`. -/
def sortRel : SortKey → Expense → Expense → Prop
  | .dateDesc => fun a b => b.date ≤ a.date
  | .dateAsc => fun a b => a.date ≤ b.date
  | .amountDesc => fun a b => b.amount ≤ a.amount
  | .amountAsc => fun a b => a.amount ≤ b.amount
  | .titleAsc => fun a b => a.title ≤ b.title
  | .titleDesc => fun a b => b.title ≤ a.title

instance sortRelDecidable (k : SortKey) : DecidableRel (sortRel k) := by
  cases k <;> exact fun a b => by dsimp [sortRel]; infer_instance

instance sortRelTotal (k : SortKey) : IsTotal Expense (sortRel k) := by
  cases k <;> exact ⟨fun a b => by dsimp [sortRel]; exact le_total _ _⟩

instance sortRelTrans (k : SortKey) : IsTrans Expense (sortRel k) := by
  cases k <;>
    exact ⟨fun a b c h1 h2 => by
      dsimp [sortRel] at *
      first
        | exact le_trans h1 h2
        | exact le_trans h2 h1⟩

/-- Embedding of `filteredExpenses` in `app.js`: filter by search term and category, then
sort by the selected key (JS stable sort, modelled by insertion sort). -/
def filteredExpenses (searchTerm filterCategory : String) (sortBy : SortKey)
    (expenses : List Expense) : List Expense :=
  List.insertionSort (sortRel sortBy)
    (expenses.filter (matchesView searchTerm filterCategory))

/-- Embedding of `recentExpenses` in `app.js`: the first five entries of the currently
filtered and sorted view. -/
def recentExpenses (searchTerm filterCategory : String) (sortBy : SortKey)
    (expenses : List Expense) : List Expense :=
  (filteredExpenses searchTerm filterCategory sortBy expenses).take 5

/-- The date-descending view of the full collection, with no filtering: the
reading of "recent" that the dashboard is described as showing. -/
def dateDescView (expenses : List Expense) : List Expense :=
  List.insertionSort (sortRel .dateDesc) expenses

/-- Numeric value of a list of decimal digit characters. -/
def digitsToNat (ds : List Char) : Nat :=
  ds.foldl (fun n c => 10 * n + (c.toNat - 48)) 0

/-- Model of the JS `Number` conversion on plain decimal strings: surrounding
whitespace is trimmed, the empty string converts to `0`, an optional sign is
followed by digits with an optional fractional part, and anything else is
`NaN` (`none`).  Exotic accepted forms of the builtin (exponents, hex,
`Infinity`) are outside this model. -/
def toNumber (s : String) : Option ℚ :=
  match charsTrim s.toList with
  | [] => some 0
  | t =>
    let (sign, body) : Int × List Char :=
      match t with
      | '-' :: r => (-1, r)
      | '+' :: r => (1, r)
      | r => (1, r)
    let ip := body.takeWhile Char.isDigit
    let rest := body.dropWhile Char.isDigit
    match rest with
    | [] => if ip.isEmpty then none else some (mkRat (sign * digitsToNat ip) 1)
    | '.' :: fr =>
      let fp := fr.takeWhile Char.isDigit
      let rest2 := fr.dropWhile Char.isDigit
      if rest2.isEmpty && !(ip.isEmpty && fp.isEmpty) then
        some (mkRat (sign * (digitsToNat ip * 10 ^ fp.length + digitsToNat fp)) (10 ^ fp.length))
      else none
    | _ => none

/-- The state of the add/edit form: the amount field is the raw input string,
the date field is the parsed day of the ISO date string (`none` models an
empty date input, which is the only falsy value the date input produces). -/
structure FormInput where
  title : String
  amount : String
  category : String
  date : Option Int
  notes : String
deriving DecidableEq, Repr

/-- The error object built by `validateForm`; a field is `none` when the
corresponding key is never assigned. -/
structure FormErrors where
  title : Option String := none
  amount : Option String := none
  category : Option String := none
  date : Option String := none
deriving DecidableEq, Repr

/-- Embedding of `validateForm` in `app.js`.  `tz` is the runtime timezone offset east of
UTC in minutes and `today` the current local day number: the code compares
`new Date(data.date)` (UTC midnight, instant `d * 1440`) against `new Date()`
with the time set to `0:00` local (instant `today * 1440 - tz`). -/
def validateForm (tz today : Int) (data : FormInput) : FormErrors :=
  { title :=
      if strTrim data.title = "" then some "Title is required"
      else if data.title.length < 3 then some "Title must be at least 3 characters"
      else none
    amount :=
      if data.amount = "" then some "Amount is required"
      else
        match toNumber data.amount with
        | none => some "Amount must be a positive number"
        | some q =>
          if q ≤ 0 then some "Amount must be a positive number"
          else if q > 10000000 then some "Amount cannot exceed 10 million PKR"
          else none
    category :=
      if data.category = "" then some "Category is required"
      else none
    date :=
      match data.date with
      | none => some "Date is required"
      | some d =>
        if d * 1440 > today * 1440 - tz then some "Date cannot be in the future"
        else none }

/-- The emptiness test `Object.keys(errors).length > 0` negated: the form
passes validation. -/
def noErrors (e : FormErrors) : Bool :=
  e.title.isNone && e.amount.isNone && e.category.isNone && e.date.isNone

/-- The new record built by `handleAddExpense`: a fresh `id`, the form fields,
the amount converted to a number, and `createdAt` set to the current time.
Validation guarantees the form date is present, so `getD 0` is never hit on
the success path. -/
def mkNewExpense (fresh : String) (now : Int) (d : FormInput) : Expense :=
  { id := fresh
    title := d.title
    amount := (toNumber d.amount).getD 0
    category := d.category
    date := d.date.getD 0
    notes := some d.notes
    createdAt := now
    updatedAt := none }

/-- Embedding of `handleAddExpense` in `app.js`: on validation failure the collection is
untouched; on success the new expense is prepended. -/
def handleAddExpense (tz today : Int) (fresh : String) (now : Int)
    (d : FormInput) (prev : List Expense) : List Expense :=
  if noErrors (validateForm tz today d) then mkNewExpense fresh now d :: prev
  else prev

/-- The record built by `handleEditExpense`: the selected expense spread
first (so `id` and `createdAt` survive), then the form fields, the converted
amount and a fresh `updatedAt`. -/
def updatedExpense (sel : Expense) (now : Int) (d : FormInput) : Expense :=
  { sel with
    title := d.title
    amount := (toNumber d.amount).getD 0
    category := d.category
    date := d.date.getD 0
    notes := some d.notes
    updatedAt := some now }

/-- Embedding of `handleEditExpense` in `app.js`: if validation passes, every stored
expense whose id equals the selected id is replaced by the updated record. -/
def handleEditExpense (tz today : Int) (sel : Expense) (now : Int)
    (d : FormInput) (prev : List Expense) : List Expense :=
  if noErrors (validateForm tz today d) then
    prev.map fun e => if e.id = sel.id then updatedExpense sel now d else e
  else prev

/-- Embedding of `handleDeleteExpense` in `app.js` (after the user confirms): keep every
expense whose id differs from the given one. -/
def handleDeleteExpense (expenseId : String) (prev : List Expense) : List Expense :=
  prev.filter fun e => e.id ≠ expenseId

/-- Embedding of `handleBulkDelete` in `app.js`: with an empty selection nothing happens;
otherwise every expense whose id is selected is removed. -/
def handleBulkDelete (selected : List String) (prev : List Expense) : List Expense :=
  if selected = [] then prev
  else prev.filter fun e => ¬ selected.contains e.id

/-- A record of the parsed JSON import payload.  JSON numbers are modelled as
rationals, date strings by their day number (an absent or empty date is
`none`); `id` and `createdAt` are optional because the importer assigns them
when missing. -/
structure ImportedRecord where
  id : Option String
  title : String
  amount : ℚ
  category : String
  date : Option Int
  notes : Option String
  createdAt : Option Int
deriving DecidableEq, Repr

/-- The truthiness filter of `importData`: `e.title && e.amount && e.category
&& e.date`.  An empty string and the number `0` are falsy. -/
def importKeeps (r : ImportedRecord) : Bool :=
  r.title ≠ "" && r.amount ≠ 0 && r.category ≠ "" && r.date.isSome

/-- The record materialised by `importData` from the `i`-th kept payload
entry: `id: e.id || crypto.randomUUID()`, `createdAt: e.createdAt ||
Date.now()` (`0` is falsy), `amount: Number(e.amount)` (the identity on a
JSON number). -/
def materializeImport (gen : Nat → String) (now : Int) (i : Nat)
    (r : ImportedRecord) : Expense :=
  { id :=
      match r.id with
      | some s => if s = "" then gen i else s
      | none => gen i
    title := r.title
    amount := r.amount
    category := r.category
    date := r.date.getD 0
    notes := r.notes
    createdAt :=
      match r.createdAt with
      | some t => if t = 0 then now else t
      | none => now
    updatedAt := none }

/-- Embedding of `importData` in `app.js` on a successfully parsed JSON array: the payload
entries passing the truthiness filter are materialised and prepended to the
existing collection (`[...validExpenses, ...prev]`).  A malformed payload
leaves the collection untouched and is modelled by not invoking this
operation. -/
def importData (gen : Nat → String) (now : Int) (payload : List ImportedRecord)
    (prev : List Expense) : List Expense :=
  ((payload.filter importKeeps).enum.map fun p => materializeImport gen now p.1 p.2)
    ++ prev

/-- The `Clear All` action of the settings screen: `setExpenses([])`. -/
def clearAll (_prev : List Expense) : List Expense := []

/-- One user-level mutation of the expense collection. -/
inductive Op where
  | add (tz today : Int) (fresh : String) (now : Int) (d : FormInput)
  | edit (tz today : Int) (sel : Expense) (now : Int) (d : FormInput)
  | del (expenseId : String)
  | bulkDel (selected : List String)
  | imp (gen : Nat → String) (now : Int) (payload : List ImportedRecord)
  | clear

/-- Apply one operation to the collection. -/
def applyOp : Op → List Expense → List Expense
  | .add tz today fresh now d => handleAddExpense tz today fresh now d
  | .edit tz today sel now d => handleEditExpense tz today sel now d
  | .del expenseId => handleDeleteExpense expenseId
  | .bulkDel selected => handleBulkDelete selected
  | .imp gen now payload => importData gen now payload
  | .clear => clearAll

/-- Apply a sequence of operations, oldest first. -/
def runOps (ops : List Op) (start : List Expense) : List Expense :=
  ops.foldl (fun st op => applyOp op st) start

/-- The per-expense aggregation of `categoryTotals`, modelling one step of
the JS `reduce` over a plain object: a first-seen category is appended (JS
string keys keep insertion order), a seen one has its sum updated in place. -/
def bumpCategory : List (String × ℚ) → String → ℚ → List (String × ℚ)
  | [], c, q => [(c, q)]
  | (c', t) :: rest, c, q =>
    if c' = c then (c', t + q) :: rest else (c', t) :: bumpCategory rest c q

/-- Embedding of `categoryTotals` in `app.js`: category-to-sum pairs in first-insertion
order. -/
def categoryTotals (expenses : List Expense) : List (String × ℚ) :=
  expenses.foldl (fun acc e => bumpCategory acc e.category e.amount) []

/-- An enriched entry of `topCategories`. -/
structure TopCategory where
  category : String
  amount : ℚ
  name : String
  icon : String
  color : String
deriving DecidableEq, Repr

/-- The reference-table enrichment applied by `topCategories`, with the
fallback display for an unknown category id. -/
def enrichCategory (p : String × ℚ) : TopCategory :=
  { category := p.1
    amount := p.2
    name := ((CATEGORIES.find? fun c => c.id = p.1).map Category.name).getD p.1
    icon := ((CATEGORIES.find? fun c => c.id = p.1).map Category.icon).getD "fa-tag"
    color := ((CATEGORIES.find? fun c => c.id = p.1).map Category.color).getD "#6b7280" }

/-- The comparator relation of `topCategories` (`([, a], [, b]) => b - a`):
a pair may stay before another when its sum is at least as large. -/
def bySumDesc (p q : String × ℚ) : Prop := q.2 ≤ p.2

instance : DecidableRel bySumDesc := fun p q => by
  dsimp [bySumDesc]; infer_instance

instance : IsTotal (String × ℚ) bySumDesc :=
  ⟨fun p q => le_total q.2 p.2⟩

instance : IsTrans (String × ℚ) bySumDesc :=
  ⟨fun _ _ _ h1 h2 => le_trans h2 h1⟩

/-- Embedding of `topCategories` in `app.js`: the category sums sorted descending by sum,
cut to the first five, enriched from the reference table. -/
def topCategories (expenses : List Expense) : List TopCategory :=
  (((categoryTotals expenses).insertionSort bySumDesc).take 5).map enrichCategory

/-- The subset chosen by `exportData`: the selected expenses when the
selection is non-empty, otherwise the whole collection. -/
def exportSelection (selected : List String) (expenses : List Expense) : List Expense :=
  if selected ≠ [] then expenses.filter fun e => selected.contains e.id
  else expenses

/-- The CSV header cells of `exportData`. -/
def csvHeaders : List String := ["Title", "Amount (PKR)", "Category", "Date", "Notes"]

/-- Rendering of an amount in a CSV cell, modelling JS number
stringification. -/
def amountCell (q : ℚ) : String := toString q

/-- Rendering of a date in a CSV cell: the decimal day number stands for the
ISO date string it models. -/
def dateCell (d : Int) : String := toString d

/-- One CSV data row of `exportData`: the five cells joined by commas with no
quoting or escaping (`e.notes || ''` reads empty for absent notes). -/
def csvRow (e : Expense) : String :=
  String.intercalate ","
    [e.title, amountCell e.amount, e.category, dateCell e.date, (e.notes.getD "")]

/-- The CSV document built by `exportData`: the joined header row followed by
one row per record, joined by newlines. -/
def exportCSV (l : List Expense) : String :=
  String.intercalate "\n" (String.intercalate "," csvHeaders :: l.map csvRow)

/-- The side condition under which the amount-positivity invariant survives
an operation: an import may only keep payload records with positive amounts.
The other operations need no condition, since add and edit are gated by
validation. -/
def opImportsPositive : Op → Prop
  | .imp _ _ payload => ∀ r ∈ payload, importKeeps r = true → 0 < r.amount
  | _ => True

/-! Helper lemmas -/

theorem charsContain_nil (l : List Char) : charsContain [] l = true := by
  cases l <;> simp [charsContain, charsStartWith, List.isEmpty]

/-- The empty search term matches every expense under the `all` category
filter. -/
theorem matchesView_default (e : Expense) : matchesView "" "all" e = true := by
  have hlow : (strToLower "").data = ([] : List Char) := rfl
  simp [matchesView, strIncludes, String.toList, hlow, charsContain_nil]

/-- A form that passes validation has an amount string converting to a
positive number. -/
theorem amount_pos_of_noErrors {tz today : Int} {d : FormInput}
    (h : noErrors (validateForm tz today d) = true) :
    ∃ q, toNumber d.amount = some q ∧ 0 < q := by
  have ha : (validateForm tz today d).amount = none := by
    simp only [noErrors, Bool.and_eq_true, Option.isNone_iff_eq_none] at h
    exact h.1.1.2
  by_cases he : d.amount = ""
  · simp [validateForm, he] at ha
  · cases hn : toNumber d.amount with
    | none => simp [validateForm, he, hn] at ha
    | some q =>
      simp only [validateForm, he, hn, if_false] at ha
      split_ifs at ha with h1 h2
      exact ⟨q, rfl, lt_of_not_le h1⟩

/-- A form that passes validation has a present date. -/
theorem date_present_of_noErrors {tz today : Int} {d : FormInput}
    (h : noErrors (validateForm tz today d) = true) :
    ∃ day, d.date = some day := by
  have hd : (validateForm tz today d).date = none := by
    simp only [noErrors, Bool.and_eq_true, Option.isNone_iff_eq_none] at h
    exact h.2
  cases hy : d.date with
  | none => simp [validateForm, hy] at hd
  | some day => exact ⟨day, rfl⟩

/-! Claims -/

/-- C2 (counterexample): the title `"ab "` trims to `"ab"`, of length 2, so
the claim demands a title error; the code checks the untrimmed length 3 and
reports none. -/
theorem C2_counterexample :
    (strTrim (FormInput.mk "ab " "5" "food" (some 0) "").title).length < 3 ∧
      (validateForm 0 0 (FormInput.mk "ab " "5" "food" (some 0) "")).title = none := by
  decide

/-- C2 (amended): `validateForm` reports a title error exactly when the
trimmed title is empty or the untrimmed title has fewer than 3 characters. -/
theorem C2_title_error_iff (tz today : Int) (d : FormInput) :
    (validateForm tz today d).title ≠ none ↔
      strTrim d.title = "" ∨ d.title.length < 3 := by
  simp only [validateForm]
  split_ifs with h1 h2 <;> simp_all

/-- C4 (code bug): in a timezone east of UTC — here UTC+5, the offset of the
Pakistani audience of this PKR tracker — a form dated today is rejected as
being in the future, because `new Date(data.date)` is UTC midnight of that
day while the `today` it is compared against is the, strictly earlier, local
midnight. -/
theorem C4_today_flagged_future_east_of_utc :
    (validateForm 300 20737
        (FormInput.mk "Lunch" "5" "food" (some 20737) "")).date
      = some "Date cannot be in the future" := by
  decide

/-- In a runtime timezone at or west of UTC (an offset of less than a day),
the date check of `validateForm` does behave at day granularity: a present
date is flagged exactly when its day is strictly after today.  East of UTC
this equivalence fails, as the C4 theorem shows. -/
theorem date_check_day_granularity_west (tz today day : Int) (d : FormInput)
    (htz : tz ≤ 0) (hspan : -1440 < tz) (hd : d.date = some day) :
    ((validateForm tz today d).date ≠ none ↔ today < day) := by
  simp only [validateForm, hd]
  split_ifs with h
  · simp only [ne_eq, reduceCtorEq, not_false_eq_true, true_iff]
    omega
  · simp only [ne_eq, not_true_eq_false, false_iff, not_lt]
    omega

/-- C1 (counterexample): with the sort key `date-asc` active, the dashboard
list is not the first five of the date-descending view of the collection. -/
theorem C1_counterexample :
    recentExpenses "" "all" .dateAsc
        [Expense.mk "a" "Tea" 1 "food" 1 none 0 none,
          Expense.mk "b" "Bus" 2 "transport" 2 none 0 none]
      ≠ (dateDescView
          [Expense.mk "a" "Tea" 1 "food" 1 none 0 none,
            Expense.mk "b" "Bus" 2 "transport" 2 none 0 none]).take 5 := by
  decide

/-- C1 (amended): `recentExpenses` is the first five of the view under the
currently active search term, category filter and sort key; it coincides with
the first five of the date-descending view of the full collection when the
search term is empty, the category filter is `all` and the sort key is
`date-desc`. -/
theorem C1_recent_of_active_view (st fc : String) (sb : SortKey)
    (es : List Expense) :
    recentExpenses st fc sb es = (filteredExpenses st fc sb es).take 5 ∧
      recentExpenses "" "all" .dateDesc es = (dateDescView es).take 5 := by
  refine ⟨rfl, ?_⟩
  unfold recentExpenses filteredExpenses dateDescView
  rw [List.filter_eq_self.mpr fun a _ => matchesView_default a]

/-- C7 (counterexample): the header row written by the CSV export names the
amount column `Amount (PKR)`, not `Amount`. -/
theorem C7_counterexample :
    exportCSV [] ≠ "Title,Amount,Category,Date,Notes" ∧
      exportCSV [] = "Title,Amount (PKR),Category,Date,Notes" := by
  decide

/-- C7 (amended): the CSV export emits the header
`Title,Amount (PKR),Category,Date,Notes` followed by one row per record whose
five cells are joined by bare commas, with no quoting or escaping. -/
theorem C7_export_csv (l : List Expense) :
    exportCSV l = String.intercalate "\n"
        ("Title,Amount (PKR),Category,Date,Notes" :: l.map csvRow) ∧
      ∀ e : Expense, csvRow e =
        e.title ++ "," ++ amountCell e.amount ++ "," ++ e.category ++ ","
          ++ dateCell e.date ++ "," ++ e.notes.getD "" := by
  exact ⟨rfl, fun e => rfl⟩

/-- C5 (counterexample): on a collection holding two records with the same
id — reachable because import keeps ids found in the payload — deleting that
id removes both records, not exactly one. -/
theorem C5_counterexample :
    (∃ x ∈ [Expense.mk "a" "Tea" 1 "food" 1 none 0 none,
        Expense.mk "a" "Chai" 2 "food" 2 none 0 none], x.id = "a") ∧
      (handleDeleteExpense "a"
          [Expense.mk "a" "Tea" 1 "food" 1 none 0 none,
            Expense.mk "a" "Chai" 2 "food" 2 none 0 none]).length + 1
        ≠ ([Expense.mk "a" "Tea" 1 "food" 1 none 0 none,
            Expense.mk "a" "Chai" 2 "food" 2 none 0 none] : List Expense).length := by
  decide

/-- C5 (amended): when the ids in the collection are pairwise distinct — the
collection invariant — deleting by id is a no-op when the id is absent, and
when present removes exactly one record, keeping every other record. -/
theorem C5_delete_by_id (l : List Expense) (i : String)
    (h : (l.map Expense.id).Nodup) :
    ((∀ e ∈ l, e.id ≠ i) → handleDeleteExpense i l = l) ∧
      (∀ e ∈ l, e.id = i →
        (handleDeleteExpense i l).length + 1 = l.length ∧
          ∀ e' ∈ l, e'.id ≠ i → e' ∈ handleDeleteExpense i l) := by
  unfold handleDeleteExpense
  induction l with
  | nil => simp
  | cons a l ih =>
    simp only [List.map_cons, List.nodup_cons, List.mem_map] at h
    obtain ⟨ha, hnd⟩ := h
    obtain ⟨ih1, ih2⟩ := ih hnd
    constructor
    · intro hno
      have hai : a.id ≠ i := hno a (List.mem_cons_self a l)
      rw [List.filter_cons_of_pos (by simpa using hai),
        ih1 fun e he => hno e (List.mem_cons_of_mem a he)]
    · intro e he hei
      rcases List.mem_cons.mp he with rfl | hel
      · have hfl : l.filter (fun x => x.id ≠ i) = l := by
          apply List.filter_eq_self.mpr
          intro x hx
          simpa using fun hxi => ha ⟨x, hx, hxi.trans hei.symm⟩
        rw [List.filter_cons_of_neg (by simpa using hei)]
        refine ⟨by rw [hfl]; simp, ?_⟩
        intro e' he' hne
        rcases List.mem_cons.mp he' with rfl | he'l
        · exact absurd hei hne
        · rwa [hfl]
      · have hai : a.id ≠ i := fun hcon => ha ⟨e, hel, hei.trans hcon.symm⟩
        obtain ⟨hlen, hframe⟩ := ih2 e hel hei
        rw [List.filter_cons_of_pos (by simpa using hai)]
        refine ⟨by simpa using hlen, ?_⟩
        intro e' he' hne
        rcases List.mem_cons.mp he' with rfl | he'l
        · exact List.mem_cons_self _ _
        · exact List.mem_cons_of_mem a (hframe e' he'l hne)

/-- C5 (witness): a concrete two-record collection with distinct ids. -/
theorem C5_delete_by_id_witness :
    (([Expense.mk "a" "Tea" 1 "food" 1 none 0 none,
        Expense.mk "b" "Bus" 2 "transport" 2 none 0 none].map Expense.id).Nodup) ∧
      (((∀ e ∈ [Expense.mk "a" "Tea" 1 "food" 1 none 0 none,
            Expense.mk "b" "Bus" 2 "transport" 2 none 0 none], e.id ≠ "b") →
          handleDeleteExpense "b"
              [Expense.mk "a" "Tea" 1 "food" 1 none 0 none,
                Expense.mk "b" "Bus" 2 "transport" 2 none 0 none]
            = [Expense.mk "a" "Tea" 1 "food" 1 none 0 none,
                Expense.mk "b" "Bus" 2 "transport" 2 none 0 none]) ∧
        (∀ e ∈ [Expense.mk "a" "Tea" 1 "food" 1 none 0 none,
            Expense.mk "b" "Bus" 2 "transport" 2 none 0 none], e.id = "b" →
          (handleDeleteExpense "b"
              [Expense.mk "a" "Tea" 1 "food" 1 none 0 none,
                Expense.mk "b" "Bus" 2 "transport" 2 none 0 none]).length + 1
            = ([Expense.mk "a" "Tea" 1 "food" 1 none 0 none,
                Expense.mk "b" "Bus" 2 "transport" 2 none 0 none] : List Expense).length ∧
            ∀ e' ∈ [Expense.mk "a" "Tea" 1 "food" 1 none 0 none,
              Expense.mk "b" "Bus" 2 "transport" 2 none 0 none], e'.id ≠ "b" →
              e' ∈ handleDeleteExpense "b"
                [Expense.mk "a" "Tea" 1 "food" 1 none 0 none,
                  Expense.mk "b" "Bus" 2 "transport" 2 none 0 none])) :=
  ⟨by decide, C5_delete_by_id _ "b" (by decide)⟩

/-- C6 (confirmed): a successful import keeps every previously stored record,
unchanged and in order (the old collection is a suffix of the new one), and
every record of the result is either an old one or the materialisation of a
payload record that passed the required-fields filter. -/
theorem C6_import_preserves_existing (gen : Nat → String) (now : Int)
    (payload : List ImportedRecord) (prev : List Expense) :
    (importData gen now payload prev).drop ((payload.filter importKeeps).length)
        = prev ∧
      (∀ e ∈ prev, e ∈ importData gen now payload prev) ∧
      ∀ x ∈ importData gen now payload prev,
        x ∈ prev ∨ ∃ i r, r ∈ payload ∧ importKeeps r = true ∧
          x = materializeImport gen now i r := by
  refine ⟨?_, ?_, ?_⟩
  · exact List.drop_left' (by simp [List.enum_length])
  · intro e he
    exact List.mem_append_right _ he
  · intro x hx
    rcases List.mem_append.mp hx with hl | hr
    · right
      obtain ⟨⟨i, r⟩, hmem, rfl⟩ := List.mem_map.mp hl
      have hr' : r ∈ payload.filter importKeeps := by
        have := List.mem_enum_iff_getElem?.mp hmem
        exact List.getElem?_mem this
      exact ⟨i, r, (List.mem_filter.mp hr').1, (List.mem_filter.mp hr').2, rfl⟩
    · exact Or.inl hr

/-- C10 (confirmed): when validation passes, adding prepends exactly one new
record — the form title, category, date and notes, the amount converted to a
(positive) number, a fresh id and creation timestamp — and leaves the
existing records unchanged in their order. -/
theorem C10_add_prepends (tz today : Int) (fresh : String) (now : Int)
    (d : FormInput) (prev : List Expense)
    (h : noErrors (validateForm tz today d) = true) :
    ∃ q day, toNumber d.amount = some q ∧ 0 < q ∧ d.date = some day ∧
      handleAddExpense tz today fresh now d prev =
        Expense.mk fresh d.title q d.category day (some d.notes) now none :: prev := by
  obtain ⟨q, hq, hqpos⟩ := amount_pos_of_noErrors h
  obtain ⟨day, hday⟩ := date_present_of_noErrors h
  refine ⟨q, day, hq, hqpos, hday, ?_⟩
  unfold handleAddExpense
  rw [if_pos h]
  simp [mkNewExpense, hq, hday]

/-- C10 (witness): a concrete valid form added to the empty collection. -/
theorem C10_add_prepends_witness :
    noErrors (validateForm 0 200 (FormInput.mk "Lunch" "5" "food" (some 100) ""))
        = true ∧
      ∃ q day,
        toNumber (FormInput.mk "Lunch" "5" "food" (some 100) "").amount = some q ∧
        0 < q ∧
        (FormInput.mk "Lunch" "5" "food" (some 100) "").date = some day ∧
        handleAddExpense 0 200 "id1" 7 (FormInput.mk "Lunch" "5" "food" (some 100) "") []
          = [Expense.mk "id1" "Lunch" q "food" day (some "") 7 none] :=
  ⟨by decide, C10_add_prepends 0 200 "id1" 7 _ [] (by decide)⟩

theorem amount_positive_step (op : Op) (l : List Expense)
    (hInv : ∀ e ∈ l, 0 < e.amount) (hop : opImportsPositive op) :
    ∀ e ∈ applyOp op l, 0 < e.amount := by
  cases op with
  | add tz today fresh now d =>
    intro e he
    simp only [applyOp, handleAddExpense] at he
    by_cases h : noErrors (validateForm tz today d) = true
    · rw [if_pos h] at he
      rcases List.mem_cons.mp he with rfl | hel
      · obtain ⟨q, hq, hqpos⟩ := amount_pos_of_noErrors h
        simpa [mkNewExpense, hq] using hqpos
      · exact hInv e hel
    · rw [if_neg h] at he
      exact hInv e he
  | edit tz today sel now d =>
    intro e he
    simp only [applyOp, handleEditExpense] at he
    by_cases h : noErrors (validateForm tz today d) = true
    · rw [if_pos h] at he
      obtain ⟨x, hx, hxe⟩ := List.mem_map.mp he
      by_cases hid : x.id = sel.id
      · rw [if_pos hid] at hxe
        obtain ⟨q, hq, hqpos⟩ := amount_pos_of_noErrors h
        rw [← hxe]
        simpa [updatedExpense, hq] using hqpos
      · rw [if_neg hid] at hxe
        exact hxe ▸ hInv x hx
    · rw [if_neg h] at he
      exact hInv e he
  | del expenseId =>
    intro e he
    exact hInv e (List.mem_of_mem_filter he)
  | bulkDel selected =>
    intro e he
    simp only [applyOp, handleBulkDelete] at he
    by_cases hs : selected = []
    · rw [if_pos hs] at he
      exact hInv e he
    · rw [if_neg hs] at he
      exact hInv e (List.mem_of_mem_filter he)
  | imp gen now payload =>
    intro e he
    simp only [applyOp, importData] at he
    rcases List.mem_append.mp he with hl | hr
    · obtain ⟨⟨i, r⟩, hmem, rfl⟩ := List.mem_map.mp hl
      have hr' : r ∈ payload.filter importKeeps :=
        List.getElem?_mem (List.mem_enum_iff_getElem?.mp hmem)
      have hf := List.mem_filter.mp hr'
      simpa [materializeImport] using hop r hf.1 hf.2
    · exact hInv e hr
  | clear =>
    intro e he
    simp [applyOp, clearAll] at he

theorem runOps_amount_positive (ops : List Op) (start : List Expense)
    (hstart : ∀ e ∈ start, 0 < e.amount)
    (h : ∀ op ∈ ops, opImportsPositive op) :
    ∀ e ∈ runOps ops start, 0 < e.amount := by
  induction ops generalizing start with
  | nil => exact hstart
  | cons op ops ih =>
    exact ih (applyOp op start)
      (amount_positive_step op start hstart (h op (List.mem_cons_self op ops)))
      fun o ho => h o (List.mem_cons_of_mem op ho)

/-- C3 (counterexample): the claim fails as stated, because import checks
only the presence (truthiness) of the `amount` field, not its sign: importing
a record with amount `-5` into the empty collection yields a stored expense
with a non-positive amount. -/
theorem C3_counterexample :
    ∃ e ∈ runOps
        [Op.imp (fun _ => "u") 0
          [ImportedRecord.mk none "Stolen" (-5) "food" (some 1) none none]] [],
      ¬ 0 < e.amount := by
  decide

/-- C3 (amended): starting from the empty collection, after any sequence of
add, edit, delete, bulk-delete, import and clear operations in which every
record an import keeps has a positive amount, every stored expense has a
positive amount.  Add and edit need no side condition: their validation gate
enforces positivity. -/
theorem C3_amount_positive (ops : List Op)
    (h : ∀ op ∈ ops, opImportsPositive op) :
    ∀ e ∈ runOps ops [], 0 < e.amount :=
  runOps_amount_positive ops [] (by simp) h

/-- C3 (witness): a concrete add followed by an import of a well-formed
record. -/
theorem C3_amount_positive_witness :
    (∀ op ∈ ([Op.add 0 200 "id1" 5 (FormInput.mk "Lunch" "5" "food" (some 100) ""),
        Op.imp (fun _ => "u") 3
          [ImportedRecord.mk (some "b") "Bus" 2 "transport" (some 1) none (some 9)]] :
          List Op), opImportsPositive op) ∧
      ∀ e ∈ runOps
          [Op.add 0 200 "id1" 5 (FormInput.mk "Lunch" "5" "food" (some 100) ""),
            Op.imp (fun _ => "u") 3
              [ImportedRecord.mk (some "b") "Bus" 2 "transport" (some 1) none (some 9)]]
          [], 0 < e.amount := by
  have hA : ∀ op ∈ ([Op.add 0 200 "id1" 5 (FormInput.mk "Lunch" "5" "food" (some 100) ""),
      Op.imp (fun _ => "u") 3
        [ImportedRecord.mk (some "b") "Bus" 2 "transport" (some 1) none (some 9)]] :
        List Op), opImportsPositive op := by
    intro op hop
    rcases List.mem_cons.mp hop with rfl | hop'
    · trivial
    · rcases List.mem_cons.mp hop' with rfl | hop''
      · intro r hr _
        rcases List.mem_cons.mp hr with rfl | hr'
        · norm_num
        · simp at hr'
      · simp at hop''
  exact ⟨hA, C3_amount_positive _ hA⟩

/-- C8 (confirmed): `topCategories` returns at most five entries, sorted
non-increasingly by summed amount, and every returned category-amount pair is
an entry of `categoryTotals` (with `n = 5`, the value the implementation
fixes). -/
theorem C8_top_categories (es : List Expense) :
    (topCategories es).length ≤ 5 ∧
      (topCategories es).Pairwise (fun a b => b.amount ≤ a.amount) ∧
      ∀ t ∈ topCategories es, (t.category, t.amount) ∈ categoryTotals es := by
  refine ⟨?_, ?_, ?_⟩
  · simp only [topCategories, List.length_map, List.length_take]
    exact min_le_left _ _
  · have hs : ((categoryTotals es).insertionSort bySumDesc).Pairwise bySumDesc :=
      List.sorted_insertionSort bySumDesc _
    have ht : (((categoryTotals es).insertionSort bySumDesc).take 5).Pairwise bySumDesc :=
      hs.sublist (List.take_sublist _ _)
    exact List.pairwise_map.mpr (ht.imp fun hpq => hpq)
  · intro t ht
    obtain ⟨p, hp, rfl⟩ := List.mem_map.mp ht
    have h1 : p ∈ (categoryTotals es).insertionSort bySumDesc :=
      (List.take_sublist _ _).subset hp
    have h2 : p ∈ categoryTotals es :=
      (List.perm_insertionSort bySumDesc _).subset h1
    simpa [enrichCategory] using h2

/-- C9 (confirmed): with the search term and category filter held fixed, on a
collection whose records carry pairwise distinct dates the date-descending
view is exactly the reverse of the date-ascending view. -/
theorem C9_date_desc_reverse (st fc : String) (es : List Expense)
    (h : (es.map Expense.date).Nodup) :
    filteredExpenses st fc .dateDesc es
      = (filteredExpenses st fc .dateAsc es).reverse := by
  unfold filteredExpenses
  set l := es.filter (matchesView st fc) with hl
  have hnd : (l.map Expense.date).Nodup :=
    h.sublist ((List.filter_sublist es).map Expense.date)
  have hperm_d : (List.insertionSort (sortRel .dateDesc) l).Perm l :=
    List.perm_insertionSort _ _
  have hperm_a : (List.insertionSort (sortRel .dateAsc) l).Perm l :=
    List.perm_insertionSort _ _
  have hsort_d : (List.insertionSort (sortRel .dateDesc) l).Pairwise (sortRel .dateDesc) :=
    List.sorted_insertionSort _ _
  have hsort_a : (List.insertionSort (sortRel .dateAsc) l).Pairwise (sortRel .dateAsc) :=
    List.sorted_insertionSort _ _
  have hnd_d : ((List.insertionSort (sortRel .dateDesc) l).map Expense.date).Nodup :=
    ((hperm_d.map Expense.date).nodup_iff).mpr hnd
  have hnd_a : ((List.insertionSort (sortRel .dateAsc) l).map Expense.date).Nodup :=
    ((hperm_a.map Expense.date).nodup_iff).mpr hnd
  have hstrict_d : (List.insertionSort (sortRel .dateDesc) l).Pairwise
      (fun a b => b.date < a.date) := by
    have hne := List.pairwise_map.mp hnd_d
    exact (hsort_d.and hne).imp fun hx => lt_of_le_of_ne hx.1 hx.2.symm
  have hstrict_a : (List.insertionSort (sortRel .dateAsc) l).Pairwise
      (fun a b => a.date < b.date) := by
    have hne := List.pairwise_map.mp hnd_a
    exact (hsort_a.and hne).imp fun hx => lt_of_le_of_ne hx.1 hx.2
  have hrev : ((List.insertionSort (sortRel .dateAsc) l).reverse).Pairwise
      (fun a b => b.date < a.date) :=
    List.pairwise_reverse.mpr hstrict_a
  haveI : IsAntisymm Expense (fun a b => b.date < a.date) :=
    ⟨fun _ _ h1 h2 => absurd (lt_trans h1 h2) (lt_irrefl _)⟩
  exact List.eq_of_perm_of_sorted
    (hperm_d.trans (hperm_a.symm.trans (List.reverse_perm _).symm))
    hstrict_d hrev

/-- C9 (witness): a concrete three-record collection with distinct dates. -/
theorem C9_date_desc_reverse_witness :
    (([Expense.mk "a" "Tea" 1 "food" 3 none 0 none,
        Expense.mk "b" "Bus" 2 "transport" 1 none 0 none,
        Expense.mk "c" "Gym" 3 "health" 2 none 0 none].map Expense.date).Nodup) ∧
      filteredExpenses "" "all" .dateDesc
          [Expense.mk "a" "Tea" 1 "food" 3 none 0 none,
            Expense.mk "b" "Bus" 2 "transport" 1 none 0 none,
            Expense.mk "c" "Gym" 3 "health" 2 none 0 none]
        = (filteredExpenses "" "all" .dateAsc
            [Expense.mk "a" "Tea" 1 "food" 3 none 0 none,
              Expense.mk "b" "Bus" 2 "transport" 1 none 0 none,
              Expense.mk "c" "Gym" 3 "health" 2 none 0 none]).reverse :=
  ⟨by decide, C9_date_desc_reverse "" "all" _ (by decide)⟩

end ExpenseTracker
